import Mathlib

/-!
Verification of the ElCare monitoring core (`monitor.py`) against its
natural-language specification.

The shallow embedding below translates the pipeline of `monitor.py`:
raw CSV events are aggregated into hourly buckets (`process_data`),
scored by an opaque model and flagged (`run_inference`), and new
WARNING/EMERGENCY rows are deduplicated and appended to durable JSON
logs (`log_warning`, `log_alert`, driven by the loop body of
`monitor_continuous`, modelled as `tick`).

Modelling conventions:
* timestamps are natural numbers of seconds; `pandas.dt.floor("h")` is
  division by 3600, so bucket keys are hour indices;
* an event's `device` field is a `String`; the empty string models the
  empty CSV cell (a heartbeat), which `pandas.read_csv` reads as NaN, so
  `Series.nunique` does not count it;
* `power` is a natural number (the simulator only emits non-negative
  integer wattages);
* the pretrained model is an opaque pair of pure functions
  (`decision_function`, `predict`), exactly as the core uses it;
* file contents are modelled by the outcome of `json.load` on them:
  `none` is a missing file, `some (Except.error ())` a file whose
  content is malformed (where `json.load` raises), `some (Except.ok l)`
  a file parsing to the record list `l`.
-/

namespace ElCare

/-- monitor.py line 13: `INACTIVITY_THRESHOLD_HOURS = 3`. -/
def INACTIVITY_THRESHOLD_HOURS : Nat := 3

/-- One row of the raw event CSV: `{timestamp, device, power, state}`.
An empty `device` is a heartbeat row. -/
structure Event where
  timestamp : Nat
  device : String
  power : Nat
  state : String
deriving Repr, DecidableEq

/-- `df["timestamp"].dt.floor("h")`: the hour index of a timestamp in seconds. -/
def floorHour (t : Nat) : Nat := t / 3600

/-- The `hour` column: the floored hour of every event, in order. -/
def eventHours (events : List Event) : List Nat :=
  events.map (fun e => floorHour e.timestamp)

/-- `df["hour"].min()` (0 on an empty frame, never used there). -/
def loHour (events : List Event) : Nat :=
  match eventHours events with
  | [] => 0
  | h :: hs => hs.foldl Nat.min h

/-- `df["hour"].max()` (0 on an empty frame, never used there). -/
def hiHour (events : List Event) : Nat :=
  match eventHours events with
  | [] => 0
  | h :: hs => hs.foldl Nat.max h

/-- `pd.date_range(start=df["hour"].min(), end=df["hour"].max(), freq="h")`:
every hour from the earliest to the latest observed hour, inclusive. -/
def hourRange (events : List Event) : List Nat :=
  if events.isEmpty then []
  else (List.range (hiHour events - loHour events + 1)).map
    (fun i => loHour events + i)

/-- The rows of `df` falling in hour `h` (the group of `df.groupby("hour")`). -/
def eventsInHour (events : List Event) (h : Nat) : List Event :=
  events.filter (fun e => floorHour e.timestamp == h)

/-- `hourly_groups["power"].sum()` aligned on the full range and
`fillna(0)`: the sum of `power` over every event of the hour (heartbeat
rows included: the groupby does not filter on `device`). -/
def total_power (events : List Event) (h : Nat) : Nat :=
  ((eventsInHour events h).map Event.power).sum

/-- `hourly_groups["device"].nunique()` aligned and `fillna(0)`: the
number of distinct non-empty device names in the hour (`nunique` skips
the NaN that `read_csv` produces for an empty device cell). -/
def active_devices (events : List Event) (h : Nat) : Nat :=
  ((((eventsInHour events h).map Event.device).filter
    (fun d => !(d == ""))).dedup).length

/-- `hourly["inactive"]` as a Boolean column: `active_devices == 0`. -/
def inactiveCol (events : List Event) : List Bool :=
  (hourRange events).map (fun h => active_devices events h == 0)

/-- `Series.rolling(window=w, min_periods=1).sum()` at row `i`: the sum
of the last `min (i+1) w` entries ending at `i`. -/
def rollingSum (w : Nat) (xs : List Nat) (i : Nat) : Nat :=
  (((xs.take (i + 1)).drop (i + 1 - w)).sum)

/-- Indicator of the `inactive` column (`astype(int)`). -/
def indicator (b : Bool) : Nat := if b then 1 else 0

/-- One row of the `hourly` frame after `process_data`. -/
structure Bucket where
  hour : Nat
  total_power : Nat
  active_devices : Nat
  hour_of_day : Nat
  inactive : Bool
  inactivity_streak : Nat
deriving Repr, DecidableEq

instance : Inhabited Bucket :=
  ⟨{ hour := 0, total_power := 0, active_devices := 0, hour_of_day := 0,
     inactive := false, inactivity_streak := 0 }⟩

/-- Row `i` of the `hourly` frame built by `process_data`. -/
def mkBucket (events : List Event) (i : Nat) : Bucket :=
  let h := (hourRange events).getD i 0
  { hour := h
    total_power := total_power events h
    active_devices := active_devices events h
    hour_of_day := h % 24
    inactive := (inactiveCol events).getD i false
    inactivity_streak :=
      rollingSum INACTIVITY_THRESHOLD_HOURS
        ((inactiveCol events).map indicator) i }

/-- monitor.py `process_data`: aggregate the raw frame to hourly rows
over the full `date_range`, fill gap hours with zeros, and add
`hour_of_day`, `inactive` and the rolling `inactivity_streak`. An empty
frame yields an empty frame. -/
def process_data (events : List Event) : List Bucket :=
  (List.range (hourRange events).length).map (mkBucket events)

/-- The feature vector `FEATURES = [total_power, active_devices,
hour_of_day, inactivity_streak]` handed to the model. -/
structure Features where
  total_power : Nat
  active_devices : Nat
  hour_of_day : Nat
  inactivity_streak : Nat
deriving Repr, DecidableEq

def Bucket.features (b : Bucket) : Features :=
  { total_power := b.total_power
    active_devices := b.active_devices
    hour_of_day := b.hour_of_day
    inactivity_streak := b.inactivity_streak }

/-- The pretrained model artifact, opaque to the core: two pure
functions of the feature vector (`decision_function` and `predict`,
with `-1` meaning anomalous). -/
structure Model where
  decision_function : Features → Int
  predict : Features → Int

/-- A `hourly` row after `run_inference` added the model and alert columns. -/
structure ScoredBucket extends Bucket where
  anomaly_score : Int
  anomaly : Int
  warning : Bool
  alert : Bool
deriving Repr, DecidableEq

/-- One row of monitor.py `run_inference`:
`condition_ml_anomaly = (anomaly == -1)`,
`condition_inactivity = (inactivity_streak >= INACTIVITY_THRESHOLD_HOURS)`,
`warning` is the exclusive disjunction of the two conditions and
`alert` their conjunction. -/
def scoreRow (model : Model) (b : Bucket) : ScoredBucket :=
  let X := b.features
  let anomaly := model.predict X
  let condition_ml_anomaly : Bool := anomaly == -1
  let condition_inactivity : Bool :=
    decide (INACTIVITY_THRESHOLD_HOURS ≤ b.inactivity_streak)
  { toBucket := b
    anomaly_score := model.decision_function X
    anomaly := anomaly
    warning := (condition_ml_anomaly && !condition_inactivity) ||
      (!condition_ml_anomaly && condition_inactivity)
    alert := condition_ml_anomaly && condition_inactivity }

/-- monitor.py `run_inference` applied to the whole frame (an empty
frame is returned unchanged). -/
def run_inference (model : Model) (hourly : List Bucket) : List ScoredBucket :=
  hourly.map (scoreRow model)

/-- The three per-hour states of the alert classifier. -/
inductive Classification where
  | NORMAL
  | WARNING
  | EMERGENCY
deriving Repr, DecidableEq

/-- The per-row classification, as read back from the `alert` and
`warning` columns (`display_status`: alert beats warning beats normal). -/
def ScoredBucket.classification (sb : ScoredBucket) : Classification :=
  if sb.alert then Classification.EMERGENCY
  else if sb.warning then Classification.WARNING
  else Classification.NORMAL

/-- The full per-tick derivation: `run_inference(process_data(df))`. -/
def pipeline (model : Model) (events : List Event) : List ScoredBucket :=
  run_inference model (process_data events)

/-- The record monitor.py `log_alert` builds and appends to
`alerts_log.json` (`timestamp` is the wall-clock detection instant). -/
structure AlertData where
  timestamp : Nat
  alert_hour : Nat
  total_power : Nat
  active_devices : Nat
  inactivity_streak : Nat
  anomaly_score : Int
deriving Repr, DecidableEq

/-- The record monitor.py `log_warning` builds and appends to
`warnings_log.json`. -/
structure WarningData where
  timestamp : Nat
  warning_hour : Nat
  total_power : Nat
  active_devices : Nat
  inactivity_streak : Nat
  anomaly_score : Int
  ml_anomaly : Bool
  high_inactivity : Bool
deriving Repr, DecidableEq

/-- A durable JSON log file, by the outcome of `json.load` on it:
`none` missing, `some (Except.error ())` present but malformed (where
`json.load` raises `JSONDecodeError`), `some (Except.ok l)` parses as `l`. -/
def LogFile (α : Type) : Type := Option (Except Unit (List α))

instance {ε α : Type} [DecidableEq ε] [DecidableEq α] :
    DecidableEq (Except ε α) := fun a b =>
  match a, b with
  | Except.error e1, Except.error e2 =>
      decidable_of_iff (e1 = e2) (by simp)
  | Except.error _, Except.ok _ => isFalse (by simp)
  | Except.ok _, Except.error _ => isFalse (by simp)
  | Except.ok a1, Except.ok a2 =>
      decidable_of_iff (a1 = a2) (by simp)

instance {α : Type} [DecidableEq α] : DecidableEq (LogFile α) := by
  unfold LogFile
  infer_instance

/-- The mutable state of the monitor process: the two in-memory
histories (`alert_history`, `warning_history`) and the two on-disk logs. -/
structure MonitorState where
  alert_history : List AlertData
  warning_history : List WarningData
  alert_log_file : LogFile AlertData
  warning_log_file : LogFile WarningData
deriving DecidableEq

/-- The dict literal of `log_alert`. -/
def mkAlertData (now : Nat) (row : ScoredBucket) : AlertData :=
  { timestamp := now
    alert_hour := row.hour
    total_power := row.total_power
    active_devices := row.active_devices
    inactivity_streak := row.inactivity_streak
    anomaly_score := row.anomaly_score }

/-- The dict literal of `log_warning`. -/
def mkWarningData (now : Nat) (row : ScoredBucket) : WarningData :=
  { timestamp := now
    warning_hour := row.hour
    total_power := row.total_power
    active_devices := row.active_devices
    inactivity_streak := row.inactivity_streak
    anomaly_score := row.anomaly_score
    ml_anomaly := row.anomaly == -1
    high_inactivity :=
      decide (INACTIVITY_THRESHOLD_HOURS ≤ row.inactivity_streak) }

/-- monitor.py `log_alert`: append to `alert_history`, then read the
existing log file (`[]` if missing; `json.load` raises on malformed
content, aborting the call with the file untouched), append the record
and write the file back. -/
def log_alert (now : Nat) (row : ScoredBucket) (s : MonitorState) :
    Except Unit MonitorState :=
  let d := mkAlertData now row
  let s1 := { s with alert_history := s.alert_history ++ [d] }
  match s.alert_log_file with
  | none => Except.ok { s1 with alert_log_file := some (Except.ok [d]) }
  | some (Except.error e) => Except.error e
  | some (Except.ok alerts) =>
      Except.ok { s1 with alert_log_file := some (Except.ok (alerts ++ [d])) }

/-- monitor.py `log_warning`: same read-append-write on `warnings_log.json`. -/
def log_warning (now : Nat) (row : ScoredBucket) (s : MonitorState) :
    Except Unit MonitorState :=
  let d := mkWarningData now row
  let s1 := { s with warning_history := s.warning_history ++ [d] }
  match s.warning_log_file with
  | none => Except.ok { s1 with warning_log_file := some (Except.ok [d]) }
  | some (Except.error e) => Except.error e
  | some (Except.ok warnings) =>
      Except.ok { s1 with warning_log_file := some (Except.ok (warnings ++ [d])) }

/-- `any(a["alert_hour"] == alert_hour.isoformat() for a in alert_history)`. -/
def alreadyAlerted (s : MonitorState) (h : Nat) : Bool :=
  s.alert_history.any (fun a => a.alert_hour == h)

/-- `any(w["warning_hour"] == warning_hour.isoformat() for w in warning_history)`. -/
def alreadyWarned (s : MonitorState) (h : Nat) : Bool :=
  s.warning_history.any (fun w => w.warning_hour == h)

/-- The body of the alert loop of `monitor_continuous` for a single row:
skip if the hour is already in `alert_history`, otherwise `log_alert`.
This is the spec's Notifier for the EMERGENCY severity. -/
def notifyAlert (now : Nat) (row : ScoredBucket) (s : MonitorState) :
    Except Unit MonitorState :=
  if alreadyAlerted s row.hour then Except.ok s
  else log_alert now row s

/-- The body of the warning loop of `monitor_continuous` for a single
row: the spec's Notifier for the WARNING severity. -/
def notifyWarning (now : Nat) (row : ScoredBucket) (s : MonitorState) :
    Except Unit MonitorState :=
  if alreadyWarned s row.hour then Except.ok s
  else log_warning now row s

/-- `for idx, alert_row in alerts.iterrows(): ...` over the filtered rows. -/
def processAlerts (now : Nat) (rows : List ScoredBucket) (s : MonitorState) :
    Except Unit MonitorState :=
  match rows with
  | [] => Except.ok s
  | r :: rs =>
      match notifyAlert now r s with
      | Except.error e => Except.error e
      | Except.ok s1 => processAlerts now rs s1

/-- `for idx, warning_row in warnings.iterrows(): ...` over the filtered rows. -/
def processWarnings (now : Nat) (rows : List ScoredBucket) (s : MonitorState) :
    Except Unit MonitorState :=
  match rows with
  | [] => Except.ok s
  | r :: rs =>
      match notifyWarning now r s with
      | Except.error e => Except.error e
      | Except.ok s1 => processWarnings now rs s1

/-- One poll tick of `monitor_continuous` on which new rows have
appeared: rerun the full pipeline on the complete history, then walk
every `alert` row and every `warning` row through the deduplicating
logger (`now` models `datetime.now()` for this tick). -/
def tick (model : Model) (now : Nat) (events : List Event)
    (s : MonitorState) : Except Unit MonitorState :=
  let hourly := pipeline model events
  let alerts := hourly.filter (fun sb => sb.alert)
  let warnings := hourly.filter (fun sb => sb.warning)
  match processAlerts now alerts s with
  | Except.error e => Except.error e
  | Except.ok s1 => processWarnings now warnings s1

/-- Repeated invocation of the EMERGENCY Notifier on one fixed row, at
the wall-clock instants `ts`. -/
def notifyAlertMany : List Nat → ScoredBucket → MonitorState →
    Except Unit MonitorState
  | [], _, s => Except.ok s
  | t :: ts, row, s =>
      match notifyAlert t row s with
      | Except.error e => Except.error e
      | Except.ok s1 => notifyAlertMany ts row s1

/-- Repeated invocation of the WARNING Notifier on one fixed row. -/
def notifyWarningMany : List Nat → ScoredBucket → MonitorState →
    Except Unit MonitorState
  | [], _, s => Except.ok s
  | t :: ts, row, s =>
      match notifyWarning t row s with
      | Except.error e => Except.error e
      | Except.ok s1 => notifyWarningMany ts row s1

/-- The streak column demanded by the spec's Invariant 2 (modelled from
the spec, for comparison with the code's rolling-window column):
`streak[h] = streak[h-1] + 1` if hour `h` is inactive, else `0`, by one
left-to-right pass; the first bucket gets 1 if inactive, else 0. -/
def specStreakAux (prev : Nat) : List Bool → List Nat
  | [] => []
  | b :: bs =>
      let cur := if b then prev + 1 else 0
      cur :: specStreakAux cur bs

/-- The spec's streak (Invariant 2) over an `inactive` column. -/
def specStreak (xs : List Bool) : List Nat := specStreakAux 0 xs

/-- Modelled from the spec: `HARD_EMERGENCY_HOURS`, the hard-inactivity
fail-safe threshold of §4.4. monitor.py defines no such constant (its
only threshold is `INACTIVITY_THRESHOLD_HOURS`); the spec's scenario in
§8 uses the value 7. -/
def HARD_EMERGENCY_HOURS : Nat := 7

/-! Concrete instances used to instantiate theorems on explicit inputs. -/

/-- A model whose `predict` deems every feature vector anomalous. -/
def anomModel : Model :=
  { decision_function := fun _ => 0, predict := fun _ => -1 }

/-- A model whose `predict` deems every feature vector normal. -/
def normModel : Model :=
  { decision_function := fun _ => 0, predict := fun _ => 1 }

/-- A heartbeat row (empty device cell, zero power) at second `t`. -/
def heartbeat (t : Nat) : Event :=
  { timestamp := t, device := "", power := 0, state := "" }

/-- A device-activity row at second `t`. -/
def deviceEvent (t : Nat) (d : String) (p : Nat) : Event :=
  { timestamp := t, device := d, power := p, state := "ON" }

/-- The state of a freshly started monitor process with no log files. -/
def initialState : MonitorState :=
  { alert_history := [], warning_history := [],
    alert_log_file := none, warning_log_file := none }

/-- A classifier input carrying a recorded seven-hour inactivity streak,
as the spec's hard-fail-safe scenario imagines. -/
def streak7Bucket : Bucket :=
  { hour := 10, total_power := 0, active_devices := 0, hour_of_day := 10,
    inactive := true, inactivity_streak := 7 }

/-- A heartbeat row that carries a non-zero power value (the raw-event
schema allows any non-negative power on an empty-device row). -/
def poweredHeartbeat : Event :=
  { timestamp := 0, device := "", power := 5, state := "" }

/-- `f` is read as the record list `l`: either the file is missing (and
`log_alert`/`log_warning` start from `[]`) or it parses as `l`. -/
def ReadsAs {α : Type} (f : LogFile α) (l : List α) : Prop :=
  (f = none ∧ l = []) ∨ f = some (Except.ok l)

/-- A scored row used to exercise the Notifier. -/
def demoRow : ScoredBucket := scoreRow anomModel streak7Bucket

/-- A monitor state whose two log files hold malformed content. -/
def malformedState : MonitorState :=
  { alert_history := [], warning_history := [],
    alert_log_file := some (Except.error ()),
    warning_log_file := some (Except.error ()) }

/-- A monitor state with empty, well-formed log files. -/
def okEmptyState : MonitorState :=
  { alert_history := [], warning_history := [],
    alert_log_file := some (Except.ok []),
    warning_log_file := some (Except.ok []) }

/-- Two consecutive hours of device activity. -/
def twoDeviceHours : List Event :=
  [deviceEvent 0 "tv" 100, deviceEvent 3600 "tv" 100]

/-- Three consecutive heartbeat-only hours. -/
def threeHeartbeats : List Event :=
  [heartbeat 0, heartbeat 3600, heartbeat 7200]

/-- A heartbeat row in hour 1 carrying a non-zero power value. -/
def poweredHeartbeat2 : Event :=
  { timestamp := 3600, device := "", power := 7, state := "" }

/-- A history whose middle hour contains only a heartbeat. -/
def mixEvents : List Event :=
  [deviceEvent 0 "tv" 100, heartbeat 3600, deviceEvent 7200 "kettle" 1200]

/-- `events` with the heartbeat rows of hour `h` removed (used to state
that a heartbeat-only hour contributes to the streak exactly as an hour
with no rows at all). -/
def removeHourHeartbeats (events : List Event) (h : Nat) : List Event :=
  events.filter (fun e => !(floorHour e.timestamp == h && e.device == ""))

/-- The completeness contract of the Aggregator (claim C3) for a
non-empty history: the bucket keys are exactly the contiguous hours
from the earliest to the latest observed floored timestamp, in strictly
increasing order with no gaps; an hour with no events at all aggregates
to all-zero activity fields; an hour with no qualifying
(non-empty-device) events has `active_devices = 0`, and additionally
`total_power = 0` when its heartbeat rows all carry zero power. -/
def AggregatorComplete (events : List Event) : Prop :=
  ((process_data events).map Bucket.hour =
    (List.range (hiHour events - loHour events + 1)).map
      (fun i => loHour events + i)) ∧
  (∀ e ∈ events, loHour events ≤ floorHour e.timestamp ∧
    floorHour e.timestamp ≤ hiHour events) ∧
  (∃ e ∈ events, floorHour e.timestamp = loHour events) ∧
  (∃ e ∈ events, floorHour e.timestamp = hiHour events) ∧
  ∀ b ∈ process_data events,
    (b.active_devices = 0 ↔
      ∀ e ∈ eventsInHour events b.hour, e.device = "") ∧
    (eventsInHour events b.hour = [] →
      b.total_power = 0 ∧ b.active_devices = 0) ∧
    ((∀ e ∈ eventsInHour events b.hour, e.device = "" ∧ e.power = 0) →
      b.total_power = 0 ∧ b.active_devices = 0)

/-- What a heartbeat-only hour `h` guarantees (claim C7): zero active
devices, an inactive bucket, zero total power when its heartbeats carry
zero power, and — whenever dropping the hour's heartbeat rows leaves
the observed hour range intact — identical `inactive` and
`inactivity_streak` columns, i.e. the heartbeat-only hour feeds the
streak exactly as an hour with no rows at all. -/
def HeartbeatHourProp (events : List Event) (h : Nat) : Prop :=
  active_devices events h = 0 ∧
  (∀ b ∈ process_data events, b.hour = h → b.inactive = true) ∧
  ((∀ e ∈ eventsInHour events h, e.power = 0) → total_power events h = 0) ∧
  (removeHourHeartbeats events h ≠ [] →
    loHour (removeHourHeartbeats events h) = loHour events →
    hiHour (removeHourHeartbeats events h) = hiHour events →
    (process_data (removeHourHeartbeats events h)).map
        (fun b =>
          (b.hour, b.active_devices, b.inactive, b.inactivity_streak)) =
      (process_data events).map
        (fun b =>
          (b.hour, b.active_devices, b.inactive, b.inactivity_streak)))

/-- The windowed-streak characterization (claim C10) at row `i`: the
streak column never exceeds the window width
`INACTIVITY_THRESHOLD_HOURS = 3`; it reaches the width exactly when
there are at least three rows so far and the last three are all
inactive; and in that case its value is exactly 3. -/
def StreakWindowProp (events : List Event) (i : Nat) : Prop :=
  ((process_data events).getD i default).inactivity_streak ≤
    INACTIVITY_THRESHOLD_HOURS ∧
  (INACTIVITY_THRESHOLD_HOURS ≤
      ((process_data events).getD i default).inactivity_streak ↔
    (2 ≤ i ∧
      ((process_data events).getD (i - 2) default).inactive = true ∧
      ((process_data events).getD (i - 1) default).inactive = true ∧
      ((process_data events).getD i default).inactive = true)) ∧
  ((2 ≤ i ∧
      ((process_data events).getD (i - 2) default).inactive = true ∧
      ((process_data events).getD (i - 1) default).inactive = true ∧
      ((process_data events).getD i default).inactive = true) →
    ((process_data events).getD i default).inactivity_streak =
      INACTIVITY_THRESHOLD_HOURS)

end ElCare

namespace ElCare

/-! ## Facts about folded minima and maxima (the `min()`/`max()` calls) -/

lemma foldl_min_le_init (a : Nat) (l : List Nat) : l.foldl Nat.min a ≤ a := by
  induction l generalizing a with
  | nil => simp
  | cons x xs ih =>
      calc (x :: xs).foldl Nat.min a = xs.foldl Nat.min (Nat.min a x) := rfl
        _ ≤ Nat.min a x := ih _
        _ ≤ a := Nat.min_le_left _ _

lemma foldl_min_le_mem {x : Nat} (a : Nat) {l : List Nat} (hx : x ∈ l) :
    l.foldl Nat.min a ≤ x := by
  induction l generalizing a with
  | nil => simp at hx
  | cons y ys ih =>
      rcases List.mem_cons.mp hx with rfl | hmem
      · calc (x :: ys).foldl Nat.min a = ys.foldl Nat.min (Nat.min a x) := rfl
          _ ≤ Nat.min a x := foldl_min_le_init _ _
          _ ≤ x := Nat.min_le_right _ _
      · exact ih _ hmem

lemma foldl_min_mem (a : Nat) (l : List Nat) :
    l.foldl Nat.min a = a ∨ l.foldl Nat.min a ∈ l := by
  induction l generalizing a with
  | nil => exact Or.inl rfl
  | cons x xs ih =>
      have hstep : (x :: xs).foldl Nat.min a = xs.foldl Nat.min (Nat.min a x) :=
        rfl
      rcases ih (Nat.min a x) with h | h
      · rcases Nat.le_total a x with hax | hxa
        · left
          rw [hstep, h]
          exact Nat.min_eq_left hax
        · right
          have hx : Nat.min a x = x := Nat.min_eq_right hxa
          rw [hstep, h, hx]
          exact List.mem_cons_self _ _
      · right
        rw [hstep]
        exact List.mem_cons_of_mem _ h

lemma le_foldl_max_init (a : Nat) (l : List Nat) : a ≤ l.foldl Nat.max a := by
  induction l generalizing a with
  | nil => simp
  | cons x xs ih =>
      calc a ≤ Nat.max a x := Nat.le_max_left _ _
        _ ≤ xs.foldl Nat.max (Nat.max a x) := ih _
        _ = (x :: xs).foldl Nat.max a := rfl

lemma mem_le_foldl_max {x : Nat} (a : Nat) {l : List Nat} (hx : x ∈ l) :
    x ≤ l.foldl Nat.max a := by
  induction l generalizing a with
  | nil => simp at hx
  | cons y ys ih =>
      rcases List.mem_cons.mp hx with rfl | hmem
      · calc x ≤ Nat.max a x := Nat.le_max_right _ _
          _ ≤ ys.foldl Nat.max (Nat.max a x) := le_foldl_max_init _ _
          _ = (x :: ys).foldl Nat.max a := rfl
      · exact ih _ hmem

lemma foldl_max_mem (a : Nat) (l : List Nat) :
    l.foldl Nat.max a = a ∨ l.foldl Nat.max a ∈ l := by
  induction l generalizing a with
  | nil => exact Or.inl rfl
  | cons x xs ih =>
      have hstep : (x :: xs).foldl Nat.max a = xs.foldl Nat.max (Nat.max a x) :=
        rfl
      rcases ih (Nat.max a x) with h | h
      · rcases Nat.le_total a x with hax | hxa
        · right
          have hx : Nat.max a x = x := Nat.max_eq_right hax
          rw [hstep, h, hx]
          exact List.mem_cons_self _ _
        · left
          rw [hstep, h]
          exact Nat.max_eq_left hxa
      · right
        rw [hstep]
        exact List.mem_cons_of_mem _ h

/-! ## The hour range and its structure -/

lemma eventHours_ne_nil {events : List Event} (h : events ≠ []) :
    eventHours events ≠ [] := by
  simpa [eventHours] using h

lemma loHour_le_floor {events : List Event} {e : Event} (he : e ∈ events) :
    loHour events ≤ floorHour e.timestamp := by
  have hmem : floorHour e.timestamp ∈ eventHours events :=
    List.mem_map_of_mem _ he
  unfold loHour
  cases hev : eventHours events with
  | nil => rw [hev] at hmem; simp at hmem
  | cons h hs =>
      rw [hev] at hmem
      rcases List.mem_cons.mp hmem with heq | hmem2
      · rw [← heq]; exact foldl_min_le_init _ _
      · exact foldl_min_le_mem _ hmem2

lemma floor_le_hiHour {events : List Event} {e : Event} (he : e ∈ events) :
    floorHour e.timestamp ≤ hiHour events := by
  have hmem : floorHour e.timestamp ∈ eventHours events :=
    List.mem_map_of_mem _ he
  unfold hiHour
  cases hev : eventHours events with
  | nil => rw [hev] at hmem; simp at hmem
  | cons h hs =>
      rw [hev] at hmem
      rcases List.mem_cons.mp hmem with heq | hmem2
      · rw [← heq]; exact le_foldl_max_init _ _
      · exact mem_le_foldl_max _ hmem2

lemma exists_floor_eq_loHour {events : List Event} (hne : events ≠ []) :
    ∃ e ∈ events, floorHour e.timestamp = loHour events := by
  have key : loHour events ∈ eventHours events := by
    unfold loHour
    cases hev : eventHours events with
    | nil => exact absurd hev (eventHours_ne_nil hne)
    | cons h hs =>
        show hs.foldl Nat.min h ∈ h :: hs
        rcases foldl_min_mem h hs with heq | hmem
        · rw [heq]
          exact List.mem_cons_self _ _
        · exact List.mem_cons_of_mem _ hmem
  rcases List.mem_map.mp key with ⟨e, he, heq⟩
  exact ⟨e, he, heq⟩

lemma exists_floor_eq_hiHour {events : List Event} (hne : events ≠ []) :
    ∃ e ∈ events, floorHour e.timestamp = hiHour events := by
  have key : hiHour events ∈ eventHours events := by
    unfold hiHour
    cases hev : eventHours events with
    | nil => exact absurd hev (eventHours_ne_nil hne)
    | cons h hs =>
        show hs.foldl Nat.max h ∈ h :: hs
        rcases foldl_max_mem h hs with heq | hmem
        · rw [heq]
          exact List.mem_cons_self _ _
        · exact List.mem_cons_of_mem _ hmem
  rcases List.mem_map.mp key with ⟨e, he, heq⟩
  exact ⟨e, he, heq⟩

lemma loHour_le_hiHour {events : List Event} (hne : events ≠ []) :
    loHour events ≤ hiHour events := by
  rcases exists_floor_eq_loHour hne with ⟨e, he, heq⟩
  rw [← heq]
  exact floor_le_hiHour he

lemma isEmpty_false {events : List Event} (hne : events ≠ []) :
    events.isEmpty = false := by
  simpa [List.isEmpty_iff] using hne

lemma hourRange_eq {events : List Event} (hne : events ≠ []) :
    hourRange events =
      (List.range (hiHour events - loHour events + 1)).map
        (fun i => loHour events + i) := by
  simp [hourRange, isEmpty_false hne]

lemma hourRange_length {events : List Event} (hne : events ≠ []) :
    (hourRange events).length = hiHour events - loHour events + 1 := by
  simp [hourRange_eq hne]

lemma hourRange_getElem {events : List Event} {i : Nat} (hne : events ≠ [])
    (hi : i < (hourRange events).length) :
    (hourRange events).getD i 0 = loHour events + i := by
  have hi2 : i < hiHour events - loHour events + 1 := by
    have := hourRange_length hne
    omega
  have hopt : (hourRange events)[i]? = some (loHour events + i) := by
    rw [hourRange_eq hne, List.getElem?_map, List.getElem?_range hi2]
    rfl
  simp [List.getD_eq_getElem?_getD, hopt]

lemma mem_hourRange {events : List Event} {h : Nat} (hne : events ≠ []) :
    h ∈ hourRange events ↔
      loHour events ≤ h ∧ h ≤ hiHour events := by
  have hlh := loHour_le_hiHour hne
  rw [hourRange_eq hne]
  simp only [List.mem_map, List.mem_range]
  constructor
  · rintro ⟨i, hi, rfl⟩
    omega
  · rintro ⟨h1, h2⟩
    exact ⟨h - loHour events, by omega, by omega⟩

/-! ## The hourly frame rows -/

lemma process_data_length (events : List Event) :
    (process_data events).length = (hourRange events).length := by
  simp [process_data]

lemma process_data_getD {events : List Event} {i : Nat}
    (hi : i < (hourRange events).length) :
    (process_data events).getD i default = mkBucket events i := by
  have hopt : (process_data events)[i]? = some (mkBucket events i) := by
    unfold process_data
    rw [List.getElem?_map, List.getElem?_range hi]
    rfl
  simp [List.getD_eq_getElem?_getD, hopt]

lemma process_data_map_hour (events : List Event) :
    (process_data events).map Bucket.hour = hourRange events := by
  apply List.ext_getElem
  · simp [process_data]
  · intro i h1 h2
    have hi : i < (hourRange events).length := h2
    have ha : ((process_data events).map Bucket.hour)[i] =
        (mkBucket events i).hour := by
      simp [process_data]
    rw [ha]
    show (hourRange events).getD i 0 = (hourRange events)[i]
    exact List.getD_eq_getElem _ _ hi

/-! ## Per-hour groups -/

lemma mem_eventsInHour {events : List Event} {h : Nat} {e : Event} :
    e ∈ eventsInHour events h ↔ e ∈ events ∧ floorHour e.timestamp = h := by
  simp [eventsInHour]

lemma eventsInHour_append (E F : List Event) (h : Nat) :
    eventsInHour (E ++ F) h = eventsInHour E h ++ eventsInHour F h :=
  List.filter_append _ _

lemma eventsInHour_eq_nil {events : List Event} {h : Nat}
    (hh : ∀ e ∈ events, floorHour e.timestamp ≠ h) :
    eventsInHour events h = [] := by
  apply List.filter_eq_nil_iff.mpr
  intro e he
  simpa using hh e he

lemma active_devices_eq_zero_iff (events : List Event) (h : Nat) :
    active_devices events h = 0 ↔
      ∀ e ∈ eventsInHour events h, e.device = "" := by
  unfold active_devices
  rw [List.length_eq_zero, List.dedup_eq_nil, List.filter_eq_nil_iff]
  constructor
  · intro hall e he
    have := hall e.device (List.mem_map_of_mem _ he)
    simpa using this
  · intro hall d hd
    rcases List.mem_map.mp hd with ⟨e, he, rfl⟩
    simpa using hall e he

lemma total_power_eq_zero {events : List Event} {h : Nat}
    (hz : ∀ e ∈ eventsInHour events h, e.power = 0) :
    total_power events h = 0 := by
  unfold total_power
  apply List.sum_eq_zero
  intro x hx
  rcases List.mem_map.mp hx with ⟨e, he, rfl⟩
  exact hz e he

/-! ## The rolling window -/

lemma rollingSum_window_length_le (w : Nat) (xs : List Nat) (i : Nat) :
    ((xs.take (i + 1)).drop (i + 1 - w)).length ≤ w := by
  simp only [List.length_drop, List.length_take]
  omega

lemma rollingSum_le {xs : List Nat} (hx : ∀ x ∈ xs, x ≤ 1) (w i : Nat) :
    rollingSum w xs i ≤ w := by
  unfold rollingSum
  calc ((xs.take (i + 1)).drop (i + 1 - w)).sum
      ≤ ((xs.take (i + 1)).drop (i + 1 - w)).length • 1 := by
        apply List.sum_le_card_nsmul
        intro x hxm
        exact hx x (List.mem_of_mem_take (List.mem_of_mem_drop hxm))
    _ = ((xs.take (i + 1)).drop (i + 1 - w)).length := by simp
    _ ≤ w := rollingSum_window_length_le w xs i

lemma rollingSum_congr_prefix {xs ys : List Nat} {n i : Nat} (hi : i < n)
    (hp : xs.take n = ys.take n) (w : Nat) :
    rollingSum w xs i = rollingSum w ys i := by
  unfold rollingSum
  have hx : xs.take (i + 1) = ys.take (i + 1) := by
    have h1 : xs.take (i + 1) = (xs.take n).take (i + 1) := by
      rw [List.take_take]
      congr 1
      omega
    have h2 : ys.take (i + 1) = (ys.take n).take (i + 1) := by
      rw [List.take_take]
      congr 1
      omega
    rw [h1, h2, hp]
  rw [hx]

lemma rollingSum_small {xs : List Nat} (hx : ∀ x ∈ xs, x ≤ 1) {i : Nat}
    (hi : i < 2) : rollingSum 3 xs i ≤ 2 := by
  unfold rollingSum
  calc ((xs.take (i + 1)).drop (i + 1 - 3)).sum
      ≤ ((xs.take (i + 1)).drop (i + 1 - 3)).length • 1 := by
        apply List.sum_le_card_nsmul
        intro x hxm
        exact hx x (List.mem_of_mem_take (List.mem_of_mem_drop hxm))
    _ = ((xs.take (i + 1)).drop (i + 1 - 3)).length := by simp
    _ ≤ 2 := by
        simp only [List.length_drop, List.length_take]
        omega

lemma list_eq_of_length_three {α : Type} (l : List α) (d : α)
    (h : l.length = 3) : l = [l.getD 0 d, l.getD 1 d, l.getD 2 d] := by
  rcases l with _ | ⟨a, l⟩
  · simp at h
  rcases l with _ | ⟨b, l⟩
  · simp at h
  rcases l with _ | ⟨c, l⟩
  · simp at h
  rcases l with _ | ⟨x, l⟩
  · rfl
  · simp only [List.length_cons, List.length_nil] at h
    omega

lemma getD_drop {α : Type} (l : List α) (m k : Nat) (d : α) :
    (l.drop m).getD k d = l.getD (m + k) d := by
  simp [List.getD_eq_getElem?_getD, List.getElem?_drop]

lemma getD_take {α : Type} {l : List α} {n k : Nat} (h : k < n) (d : α) :
    (l.take n).getD k d = l.getD k d := by
  simp [List.getD_eq_getElem?_getD, List.getElem?_take, h]

lemma window3_eq {xs : List Nat} {i : Nat} (h2 : 2 ≤ i) (hi : i < xs.length) :
    (xs.take (i + 1)).drop (i + 1 - 3) =
      [xs.getD (i - 2) 0, xs.getD (i - 1) 0, xs.getD i 0] := by
  have hlen : ((xs.take (i + 1)).drop (i + 1 - 3)).length = 3 := by
    simp only [List.length_drop, List.length_take]
    omega
  rw [list_eq_of_length_three _ 0 hlen]
  have step : ∀ k, k < 3 →
      ((xs.take (i + 1)).drop (i + 1 - 3)).getD k 0 =
        xs.getD (i + 1 - 3 + k) 0 := by
    intro k hk
    rw [getD_drop, getD_take (show i + 1 - 3 + k < i + 1 by omega)]
  rw [step 0 (by omega), step 1 (by omega), step 2 (by omega)]
  have e0 : i + 1 - 3 + 0 = i - 2 := by omega
  have e1 : i + 1 - 3 + 1 = i - 1 := by omega
  have e2 : i + 1 - 3 + 2 = i := by omega
  rw [e0, e1, e2]

lemma rollingSum3_window {xs : List Nat} {i : Nat} (h2 : 2 ≤ i)
    (hi : i < xs.length) :
    rollingSum 3 xs i = xs.getD (i - 2) 0 + xs.getD (i - 1) 0 + xs.getD i 0 := by
  unfold rollingSum
  rw [window3_eq h2 hi]
  simp only [List.sum_cons, List.sum_nil]
  omega

/-! ## Classifier lemmas -/

/-- A row classifies EMERGENCY exactly when its `alert` column is set. -/
lemma classification_eq_emergency (sb : ScoredBucket) :
    sb.classification = Classification.EMERGENCY ↔ sb.alert = true := by
  by_cases ha : sb.alert <;> by_cases hw : sb.warning <;>
    simp [ScoredBucket.classification, ha, hw]

/-- A row classifies WARNING exactly when `warning` is set and `alert` is not. -/
lemma classification_eq_warning (sb : ScoredBucket) :
    sb.classification = Classification.WARNING ↔
      (sb.warning = true ∧ sb.alert = false) := by
  by_cases ha : sb.alert <;>
    by_cases hw : sb.warning <;>
    simp [ScoredBucket.classification, ha, hw]

/-- The `alert` column of a scored row, in propositional form. -/
lemma scoreRow_alert_iff (model : Model) (b : Bucket) :
    (scoreRow model b).alert = true ↔
      (model.predict b.features = -1 ∧
        INACTIVITY_THRESHOLD_HOURS ≤ b.inactivity_streak) := by
  simp [scoreRow]

/-- The `warning` column of a scored row, in propositional form. -/
lemma scoreRow_warning_iff (model : Model) (b : Bucket) :
    (scoreRow model b).warning = true ↔
      ((model.predict b.features = -1 ∧
          ¬ INACTIVITY_THRESHOLD_HOURS ≤ b.inactivity_streak) ∨
        (¬ model.predict b.features = -1 ∧
          INACTIVITY_THRESHOLD_HOURS ≤ b.inactivity_streak)) := by
  simp [scoreRow]

/-! ## C1 -/

/-- C1 (counterexample): a bucket whose recorded `inactivity_streak` is
7 ≥ `HARD_EMERGENCY_HOURS` but whose row the model deems normal is
classified WARNING, not EMERGENCY: the claimed model-independent
hard-inactivity EMERGENCY rule does not exist in `run_inference`. -/
theorem c1_counterexample :
    HARD_EMERGENCY_HOURS ≤ streak7Bucket.inactivity_streak ∧
    (scoreRow normModel streak7Bucket).anomaly ≠ -1 ∧
    (scoreRow normModel streak7Bucket).classification =
      Classification.WARNING ∧
    (scoreRow normModel streak7Bucket).classification ≠
      Classification.EMERGENCY := by
  decide

/-- C1 (amended): `run_inference` classifies a bucket EMERGENCY exactly
when the model flags it anomalous AND its `inactivity_streak` is at
least `INACTIVITY_THRESHOLD_HOURS`; there is no hard-inactivity
fail-safe, so a bucket the model deems normal is never EMERGENCY,
however long its streak. -/
theorem c1_no_hard_rule (model : Model) (b : Bucket) :
    (scoreRow model b).classification = Classification.EMERGENCY ↔
      (model.predict b.features = -1 ∧
        INACTIVITY_THRESHOLD_HOURS ≤ b.inactivity_streak) := by
  rw [classification_eq_emergency, scoreRow_alert_iff]

/-! ## C4 -/

/-- C4: `run_inference` sets a bucket's classification to WARNING iff
exactly one of {model anomaly, `inactivity_streak ≥
INACTIVITY_THRESHOLD_HOURS`} holds and the bucket is not classified
EMERGENCY (the latter conjunct is automatic, since EMERGENCY requires
both conditions). -/
theorem c4_warning_iff (model : Model) (b : Bucket) :
    (scoreRow model b).classification = Classification.WARNING ↔
      (((model.predict b.features = -1 ∧
           ¬ INACTIVITY_THRESHOLD_HOURS ≤ b.inactivity_streak) ∨
         (¬ model.predict b.features = -1 ∧
           INACTIVITY_THRESHOLD_HOURS ≤ b.inactivity_streak)) ∧
        (scoreRow model b).classification ≠ Classification.EMERGENCY) := by
  simp only [ne_eq, classification_eq_warning, classification_eq_emergency,
    scoreRow_warning_iff, scoreRow_alert_iff, Bool.eq_false_iff]

/-! ## C2 -/

/-- C2 (code bug, per the spec's own Design Notes): on the three-hour
history ⟨heartbeat, device event, heartbeat⟩ the `inactive` column is
`[true, false, true]`, the spec's Invariant-2 recurrence demands the
streak column `[1, 0, 1]`, but `process_data`'s rolling-window column
is `[1, 1, 2]`: the second (active) hour gets streak 1 instead of 0 and
the third hour gets 2 instead of 1. -/
theorem c2_rolling_breaks_recurrence :
    (process_data
        [heartbeat 0, deviceEvent 3600 "tv" 100, heartbeat 7200]).map
        (fun b => b.inactive) = [true, false, true] ∧
    (process_data
        [heartbeat 0, deviceEvent 3600 "tv" 100, heartbeat 7200]).map
        (fun b => b.inactivity_streak) = [1, 1, 2] ∧
    specStreak [true, false, true] = [1, 0, 1] := by
  decide

/-! ## Bridging the bucket rows and the rolling window -/

lemma indicator_le_one (b : Bool) : indicator b ≤ 1 := by
  cases b <;> simp [indicator]

lemma indicator_eq_one_iff (b : Bool) : indicator b = 1 ↔ b = true := by
  cases b <;> simp [indicator]

lemma inactiveCol_length (events : List Event) :
    (inactiveCol events).length = (hourRange events).length := by
  simp [inactiveCol]

lemma mapInd_getD {events : List Event} {j : Nat}
    (hj : j < (hourRange events).length) :
    ((inactiveCol events).map indicator).getD j 0 =
      indicator ((inactiveCol events).getD j false) := by
  have hj2 : j < (inactiveCol events).length := by
    rw [inactiveCol_length]
    exact hj
  have h1 : (inactiveCol events)[j]? = some ((inactiveCol events).getD j false) := by
    rw [List.getElem?_eq_getElem hj2, List.getD_eq_getElem _ _ hj2]
  rw [List.getD_eq_getElem?_getD, List.getElem?_map, h1]
  rfl

lemma mapInd_le_one (events : List Event) :
    ∀ x ∈ (inactiveCol events).map indicator, x ≤ 1 := by
  intro x hx
  rcases List.mem_map.mp hx with ⟨b, _, rfl⟩
  exact indicator_le_one b

lemma bucket_streak {events : List Event} {j : Nat}
    (hj : j < (hourRange events).length) :
    ((process_data events).getD j default).inactivity_streak =
      rollingSum 3 ((inactiveCol events).map indicator) j := by
  rw [process_data_getD hj]
  rfl

lemma bucket_inactive_iff {events : List Event} {j : Nat}
    (hj : j < (hourRange events).length) :
    (((process_data events).getD j default).inactive = true ↔
      ((inactiveCol events).map indicator).getD j 0 = 1) := by
  rw [process_data_getD hj, mapInd_getD hj, indicator_eq_one_iff]
  rfl

lemma mapInd_getD_le_one (events : List Event) (j : Nat) :
    ((inactiveCol events).map indicator).getD j 0 ≤ 1 := by
  by_cases hj : j < ((inactiveCol events).map indicator).length
  · rw [List.getD_eq_getElem _ _ hj]
    exact mapInd_le_one events _ (List.getElem_mem hj)
  · rw [List.getD_eq_default _ _ (by omega)]
    omega

/-! ## C10 -/

/-- C10 (amended): the rolling-window streak is capped at the window
width 3; it is at least 3 exactly when row `i` has at least two
predecessors and rows `i-2`, `i-1`, `i` are all inactive (so every
contiguous inactive run of length ≥ 3 pins the value at exactly 3); for
the first two rows of the table the trigger can never fire, even when
every bucket so far is inactive. -/
theorem c10_streak_window (events : List Event) (i : Nat)
    (hi : i < (process_data events).length) : StreakWindowProp events i := by
  have hi' : i < (hourRange events).length := by
    rw [← process_data_length]
    exact hi
  have hlenm : ((inactiveCol events).map indicator).length =
      (hourRange events).length := by
    simp [inactiveCol]
  have hall := mapInd_le_one events
  have hI : INACTIVITY_THRESHOLD_HOURS = 3 := rfl
  have hcap : rollingSum 3 ((inactiveCol events).map indicator) i ≤ 3 :=
    rollingSum_le hall 3 i
  refine ⟨?_, ?_, ?_⟩
  · rw [bucket_streak hi', hI]
    exact hcap
  · constructor
    · intro h3
      rw [bucket_streak hi', hI] at h3
      by_cases h2 : 2 ≤ i
      · have hw := rollingSum3_window h2
          (show i < ((inactiveCol events).map indicator).length by omega)
        rw [hw] at h3
        have ha := mapInd_getD_le_one events (i - 2)
        have hb := mapInd_getD_le_one events (i - 1)
        have hc := mapInd_getD_le_one events i
        refine ⟨h2, ?_, ?_, ?_⟩
        · rw [bucket_inactive_iff (show i - 2 < (hourRange events).length by omega)]
          omega
        · rw [bucket_inactive_iff (show i - 1 < (hourRange events).length by omega)]
          omega
        · rw [bucket_inactive_iff hi']
          omega
      · have := rollingSum_small hall (show i < 2 by omega)
        omega
    · rintro ⟨h2, ha, hb, hc⟩
      rw [bucket_inactive_iff
        (show i - 2 < (hourRange events).length by omega)] at ha
      rw [bucket_inactive_iff
        (show i - 1 < (hourRange events).length by omega)] at hb
      rw [bucket_inactive_iff hi'] at hc
      rw [bucket_streak hi',
        rollingSum3_window h2
          (show i < ((inactiveCol events).map indicator).length by omega),
        ha, hb, hc, hI]
  · rintro ⟨h2, ha, hb, hc⟩
    rw [bucket_inactive_iff
      (show i - 2 < (hourRange events).length by omega)] at ha
    rw [bucket_inactive_iff
      (show i - 1 < (hourRange events).length by omega)] at hb
    rw [bucket_inactive_iff hi'] at hc
    rw [bucket_streak hi',
      rollingSum3_window h2
        (show i < ((inactiveCol events).map indicator).length by omega),
      ha, hb, hc, hI]

/-- C10 (hypotheses instantiated): the characterization holds at the
third row of a three-heartbeat history. -/
theorem c10_witness :
    2 < (process_data threeHeartbeats).length ∧
      StreakWindowProp threeHeartbeats 2 :=
  ⟨by decide, c10_streak_window threeHeartbeats 2 (by decide)⟩

/-- C10 (counterexample to the claimed trigger equivalence): for a
single-bucket history whose only bucket is inactive, all buckets so far
are inactive, yet the streak is 1 and the trigger
`streak ≥ INACTIVITY_THRESHOLD_HOURS` does not fire — so the trigger is
not equivalent to "the last 3 buckets, or all buckets so far if fewer,
are all inactive". -/
theorem c10_counterexample :
    ((process_data [heartbeat 0]).map (fun b => b.inactive) = [true]) ∧
    ((process_data [heartbeat 0]).map
      (fun b => b.inactivity_streak) = [1]) ∧
    ¬ INACTIVITY_THRESHOLD_HOURS ≤
        ((process_data [heartbeat 0]).getD 0 default).inactivity_streak := by
  decide

/-! ## C3 -/

lemma per_hour_facts (events : List Event) (h : Nat) :
    (active_devices events h = 0 ↔
      ∀ e ∈ eventsInHour events h, e.device = "") ∧
    (eventsInHour events h = [] →
      total_power events h = 0 ∧ active_devices events h = 0) ∧
    ((∀ e ∈ eventsInHour events h, e.device = "" ∧ e.power = 0) →
      total_power events h = 0 ∧ active_devices events h = 0) := by
  refine ⟨active_devices_eq_zero_iff events h, ?_, ?_⟩
  · intro hnil
    constructor
    · apply total_power_eq_zero
      intro e he
      rw [hnil] at he
      simp at he
    · rw [active_devices_eq_zero_iff]
      intro e he
      rw [hnil] at he
      simp at he
  · intro hhb
    constructor
    · exact total_power_eq_zero (fun e he => (hhb e he).2)
    · exact (active_devices_eq_zero_iff events h).mpr
        (fun e he => (hhb e he).1)

lemma mem_process_data {events : List Event} {b : Bucket}
    (hb : b ∈ process_data events) :
    ∃ i, i < (hourRange events).length ∧ b = mkBucket events i := by
  unfold process_data at hb
  rcases List.mem_map.mp hb with ⟨i, hi, rfl⟩
  exact ⟨i, List.mem_range.mp hi, rfl⟩

/-- C3 (amended): for a non-empty history the bucket keys form exactly
the contiguous, strictly increasing hour range from the floor of the
earliest event timestamp to that of the latest; hours with no events
aggregate to zero power and zero devices; hours with no
non-empty-device events have `active_devices = 0`, and `total_power`
is also 0 there provided their heartbeat rows carry zero power (the
groupby sums `power` over all rows of the hour, heartbeats included). -/
theorem c3_completeness (events : List Event) (hne : events ≠ []) :
    AggregatorComplete events := by
  refine ⟨?_, ?_, exists_floor_eq_loHour hne, exists_floor_eq_hiHour hne, ?_⟩
  · rw [process_data_map_hour, hourRange_eq hne]
  · intro e he
    exact ⟨loHour_le_floor he, floor_le_hiHour he⟩
  · intro b hb
    rcases mem_process_data hb with ⟨i, hi, rfl⟩
    have hp : (mkBucket events i).total_power =
        total_power events ((mkBucket events i).hour) := rfl
    have hd : (mkBucket events i).active_devices =
        active_devices events ((mkBucket events i).hour) := rfl
    rw [hp, hd]
    exact per_hour_facts events ((mkBucket events i).hour)

/-- C3 (hypothesis instantiated): the completeness contract at a
one-heartbeat history. -/
theorem c3_witness :
    [heartbeat 0] ≠ [] ∧ AggregatorComplete [heartbeat 0] :=
  ⟨by decide, c3_completeness [heartbeat 0] (by decide)⟩

/-- C3 (counterexample to the zero-power clause as claimed): an hour
whose only row is a heartbeat carrying power 5 has no qualifying
(non-empty-device) events, yet aggregates to `total_power = 5 ≠ 0`,
because the groupby sums `power` over every row of the hour. -/
theorem c3_counterexample :
    (∀ e ∈ eventsInHour [poweredHeartbeat] 0, e.device = "") ∧
    (process_data [poweredHeartbeat]).map
      (fun b => (b.hour, b.total_power, b.active_devices)) = [(0, 5, 0)] := by
  decide

/-! ## C7 -/

lemma inactiveCol_getD {events : List Event} {i : Nat}
    (hi : i < (hourRange events).length) :
    (inactiveCol events).getD i false =
      (active_devices events ((hourRange events).getD i 0) == 0) := by
  have h1 : (hourRange events)[i]? = some ((hourRange events).getD i 0) := by
    rw [List.getElem?_eq_getElem hi, List.getD_eq_getElem _ _ hi]
  rw [inactiveCol, List.getD_eq_getElem?_getD, List.getElem?_map, h1]
  rfl

lemma eventsInHour_remove (events : List Event) (h h2 : Nat) :
    eventsInHour (removeHourHeartbeats events h) h2 =
      (eventsInHour events h2).filter
        (fun e => !(floorHour e.timestamp == h && e.device == "")) := by
  unfold removeHourHeartbeats eventsInHour
  rw [List.filter_filter, List.filter_filter]
  apply List.filter_congr
  intro e _
  rw [Bool.and_comm]

lemma map_filter_heartbeats (l : List Event) (h : Nat) :
    ((l.filter
        (fun e => !(floorHour e.timestamp == h && e.device == ""))).map
          Event.device).filter (fun d => !(d == "")) =
      (l.map Event.device).filter (fun d => !(d == "")) := by
  induction l with
  | nil => rfl
  | cons e es ih =>
      by_cases hB : e.device = ""
      · by_cases hA : floorHour e.timestamp = h
        · have hk : (!(floorHour e.timestamp == h && e.device == "")) = false := by
            simp [hA, hB]
          have hd : (!(e.device == "")) = false := by simp [hB]
          simp only [List.filter_cons, List.map_cons, hk, hd,
            Bool.false_eq_true, if_false]
          exact ih
        · have hk : (!(floorHour e.timestamp == h && e.device == "")) = true := by
            simp [hA]
          have hd : (!(e.device == "")) = false := by simp [hB]
          simp only [List.filter_cons, List.map_cons, hk, hd, if_true,
            Bool.false_eq_true, if_false]
          exact ih
      · have hk : (!(floorHour e.timestamp == h && e.device == "")) = true := by
          simp [hB]
        have hd : (!(e.device == "")) = true := by simp [hB]
        simp only [List.filter_cons, List.map_cons, hk, hd, if_true]
        rw [ih]

lemma active_devices_remove (events : List Event) (h h2 : Nat) :
    active_devices (removeHourHeartbeats events h) h2 =
      active_devices events h2 := by
  unfold active_devices
  rw [eventsInHour_remove]
  rw [map_filter_heartbeats]

lemma hourRange_remove {events : List Event} {h : Nat}
    (hne : events ≠ []) (hne2 : removeHourHeartbeats events h ≠ [])
    (hlo : loHour (removeHourHeartbeats events h) = loHour events)
    (hhi : hiHour (removeHourHeartbeats events h) = hiHour events) :
    hourRange (removeHourHeartbeats events h) = hourRange events := by
  rw [hourRange_eq hne2, hourRange_eq hne, hlo, hhi]

lemma inactiveCol_remove {events : List Event} {h : Nat}
    (hne : events ≠ []) (hne2 : removeHourHeartbeats events h ≠ [])
    (hlo : loHour (removeHourHeartbeats events h) = loHour events)
    (hhi : hiHour (removeHourHeartbeats events h) = hiHour events) :
    inactiveCol (removeHourHeartbeats events h) = inactiveCol events := by
  unfold inactiveCol
  rw [hourRange_remove hne hne2 hlo hhi]
  apply List.map_congr_left
  intro x _
  rw [active_devices_remove]

/-- C7 (amended): a heartbeat-only hour aggregates to
`active_devices = 0`, its bucket is marked inactive, its `total_power`
is 0 when its heartbeats carry zero power (in general it is the sum of
the heartbeats' power values), and, provided removing the hour's
heartbeat rows does not shrink the observed hour range, every bucket's
`inactive` flag and `inactivity_streak` are exactly what they would be
had the hour contained no rows at all. -/
theorem c7_heartbeat_hour (events : List Event) (h : Nat)
    (hhb : ∀ e ∈ eventsInHour events h, e.device = "") :
    HeartbeatHourProp events h := by
  have hdev0 : active_devices events h = 0 :=
    (active_devices_eq_zero_iff events h).mpr hhb
  refine ⟨hdev0, ?_, ?_, ?_⟩
  · intro b hb hbh
    rcases mem_process_data hb with ⟨i, hi, rfl⟩
    show (inactiveCol events).getD i false = true
    rw [inactiveCol_getD hi]
    have hbh2 : (hourRange events).getD i 0 = h := hbh
    rw [hbh2, hdev0]
    rfl
  · exact total_power_eq_zero
  · intro hne2 hlo hhi
    have hne : events ≠ [] := by
      intro hcon
      apply hne2
      rw [hcon]
      rfl
    have hr := hourRange_remove hne hne2 hlo hhi
    have hc := inactiveCol_remove hne hne2 hlo hhi
    apply List.ext_getElem
    · simp [process_data, hr]
    · intro i h1 h2
      have ha : ((process_data (removeHourHeartbeats events h)).map
          (fun b =>
            (b.hour, b.active_devices, b.inactive, b.inactivity_streak)))[i] =
          ((hourRange (removeHourHeartbeats events h)).getD i 0,
            active_devices (removeHourHeartbeats events h)
              ((hourRange (removeHourHeartbeats events h)).getD i 0),
            (inactiveCol (removeHourHeartbeats events h)).getD i false,
            rollingSum INACTIVITY_THRESHOLD_HOURS
              ((inactiveCol (removeHourHeartbeats events h)).map indicator)
              i) := by
        simp [process_data, mkBucket]
      have hb : ((process_data events).map
          (fun b =>
            (b.hour, b.active_devices, b.inactive, b.inactivity_streak)))[i] =
          ((hourRange events).getD i 0,
            active_devices events ((hourRange events).getD i 0),
            (inactiveCol events).getD i false,
            rollingSum INACTIVITY_THRESHOLD_HOURS
              ((inactiveCol events).map indicator) i) := by
        simp [process_data, mkBucket]
      rw [ha, hb, hr, hc, active_devices_remove]

/-- C7 (hypothesis instantiated): the heartbeat-only middle hour of
`mixEvents`. -/
theorem c7_witness :
    (∀ e ∈ eventsInHour mixEvents 1, e.device = "") ∧
      HeartbeatHourProp mixEvents 1 :=
  ⟨by decide, c7_heartbeat_hour mixEvents 1 (by decide)⟩

/-- C7 (counterexample to the zero-power clause as claimed): an hour
whose only row is a heartbeat carrying power 7 is marked inactive with
`active_devices = 0`, yet its `total_power` is 7, not 0. -/
theorem c7_counterexample :
    (∀ e ∈ eventsInHour [deviceEvent 0 "tv" 100, poweredHeartbeat2] 1,
      e.device = "") ∧
    (process_data [deviceEvent 0 "tv" 100, poweredHeartbeat2]).map
        (fun b => (b.hour, b.total_power, b.active_devices, b.inactive)) =
      [(0, 100, 1, false), (1, 7, 0, true)] := by
  decide

/-! ## C6 -/

lemma append_ne_nil_left {E later : List Event} (hne : E ≠ []) :
    E ++ later ≠ [] := by
  simp [hne]

lemma loHour_append {E later : List Event} (hne : E ≠ [])
    (hlater : ∀ e ∈ later, hiHour E < floorHour e.timestamp) :
    loHour (E ++ later) = loHour E := by
  have hne2 : (E ++ later) ≠ [] := append_ne_nil_left hne
  rcases exists_floor_eq_loHour hne2 with ⟨e, he, heq⟩
  rcases List.mem_append.mp he with heE | heL
  · apply Nat.le_antisymm
    · rcases exists_floor_eq_loHour hne with ⟨e0, he0, heq0⟩
      rw [← heq0]
      exact loHour_le_floor (List.mem_append_left _ he0)
    · rw [← heq]
      exact loHour_le_floor heE
  · exfalso
    have h1 : hiHour E < floorHour e.timestamp := hlater e heL
    rcases exists_floor_eq_hiHour hne with ⟨e1, he1, heq1⟩
    have h3 : loHour (E ++ later) ≤ floorHour e1.timestamp :=
      loHour_le_floor (List.mem_append_left _ he1)
    omega

lemma hiHour_append_le {E : List Event} (later : List Event)
    (hne : E ≠ []) : hiHour E ≤ hiHour (E ++ later) := by
  rcases exists_floor_eq_hiHour hne with ⟨e, he, heq⟩
  rw [← heq]
  exact floor_le_hiHour (List.mem_append_left _ he)

lemma eventsInHour_append_later {E later : List Event} {h : Nat}
    (hh : h ≤ hiHour E)
    (hlater : ∀ e ∈ later, hiHour E < floorHour e.timestamp) :
    eventsInHour (E ++ later) h = eventsInHour E h := by
  rw [eventsInHour_append]
  have hnil : eventsInHour later h = [] := by
    apply eventsInHour_eq_nil
    intro e he
    have := hlater e he
    omega
  rw [hnil, List.append_nil]

lemma hourRange_append_take {E later : List Event} (hne : E ≠ [])
    (hlater : ∀ e ∈ later, hiHour E < floorHour e.timestamp) :
    (hourRange (E ++ later)).take (hourRange E).length = hourRange E := by
  have hne2 : (E ++ later) ≠ [] := append_ne_nil_left hne
  have hhi := hiHour_append_le later hne
  have hmin : min (hiHour E - loHour E + 1)
      (hiHour (E ++ later) - loHour E + 1) = hiHour E - loHour E + 1 :=
    min_eq_left (by omega)
  rw [hourRange_eq hne2, hourRange_eq hne, loHour_append hne hlater,
    List.length_map, List.length_range, ← List.map_take, List.take_range,
    hmin]

lemma inactiveCol_append_take {E later : List Event} (hne : E ≠ [])
    (hlater : ∀ e ∈ later, hiHour E < floorHour e.timestamp) :
    (inactiveCol (E ++ later)).take (hourRange E).length = inactiveCol E := by
  unfold inactiveCol
  rw [← List.map_take, hourRange_append_take hne hlater]
  apply List.map_congr_left
  intro h hmem
  have hh : h ≤ hiHour E := ((mem_hourRange hne).mp hmem).2
  have hdev : active_devices (E ++ later) h = active_devices E h := by
    unfold active_devices
    rw [eventsInHour_append_later hh hlater]
  rw [hdev]

lemma mkBucket_append {E later : List Event} (hne : E ≠ [])
    (hlater : ∀ e ∈ later, hiHour E < floorHour e.timestamp)
    {i : Nat} (hi : i < (hourRange E).length) :
    mkBucket (E ++ later) i = mkBucket E i := by
  have hne2 : (E ++ later) ≠ [] := append_ne_nil_left hne
  have hlo := loHour_append hne hlater
  have hhi := hiHour_append_le later hne
  have hlen : (hourRange E).length = hiHour E - loHour E + 1 :=
    hourRange_length hne
  have hlen2 : (hourRange (E ++ later)).length =
      hiHour (E ++ later) - loHour (E ++ later) + 1 := hourRange_length hne2
  have hi2 : i < (hourRange (E ++ later)).length := by
    rw [hlen2, hlo]
    omega
  have hg1 : (hourRange (E ++ later)).getD i 0 = loHour E + i := by
    rw [hourRange_getElem hne2 hi2, hlo]
  have hg2 : (hourRange E).getD i 0 = loHour E + i := hourRange_getElem hne hi
  have hlh := loHour_le_hiHour hne
  have hh : loHour E + i ≤ hiHour E := by omega
  have hev : eventsInHour (E ++ later) (loHour E + i) =
      eventsInHour E (loHour E + i) := eventsInHour_append_later hh hlater
  have hcol := inactiveCol_append_take hne hlater
  have hp : total_power (E ++ later) (loHour E + i) =
      total_power E (loHour E + i) := by
    unfold total_power
    rw [hev]
  have hd : active_devices (E ++ later) (loHour E + i) =
      active_devices E (loHour E + i) := by
    unfold active_devices
    rw [hev]
  have hin : (inactiveCol (E ++ later)).getD i false =
      (inactiveCol E).getD i false := by
    rw [← hcol]
    exact (getD_take hi false).symm
  have hlc : (inactiveCol E).length = (hourRange E).length :=
    inactiveCol_length E
  have hstreak : rollingSum INACTIVITY_THRESHOLD_HOURS
      ((inactiveCol (E ++ later)).map indicator) i =
      rollingSum INACTIVITY_THRESHOLD_HOURS
        ((inactiveCol E).map indicator) i := by
    apply rollingSum_congr_prefix hi
    calc ((inactiveCol (E ++ later)).map indicator).take (hourRange E).length
        = ((inactiveCol (E ++ later)).take (hourRange E).length).map
            indicator := (List.map_take _ _ _).symm
      _ = (inactiveCol E).map indicator := by rw [hcol]
      _ = ((inactiveCol E).map indicator).take (hourRange E).length := by
          rw [← List.map_take, ← hlc, List.take_length]
  have hB1 : mkBucket (E ++ later) i =
      { hour := (hourRange (E ++ later)).getD i 0
        total_power := total_power (E ++ later)
          ((hourRange (E ++ later)).getD i 0)
        active_devices := active_devices (E ++ later)
          ((hourRange (E ++ later)).getD i 0)
        hour_of_day := ((hourRange (E ++ later)).getD i 0) % 24
        inactive := (inactiveCol (E ++ later)).getD i false
        inactivity_streak := rollingSum INACTIVITY_THRESHOLD_HOURS
          ((inactiveCol (E ++ later)).map indicator) i } := rfl
  have hB2 : mkBucket E i =
      { hour := (hourRange E).getD i 0
        total_power := total_power E ((hourRange E).getD i 0)
        active_devices := active_devices E ((hourRange E).getD i 0)
        hour_of_day := ((hourRange E).getD i 0) % 24
        inactive := (inactiveCol E).getD i false
        inactivity_streak := rollingSum INACTIVITY_THRESHOLD_HOURS
          ((inactiveCol E).map indicator) i } := rfl
  rw [hB1, hB2, hg1, hg2, hp, hd, hin, hstreak]

lemma process_data_append_take {E later : List Event} (hne : E ≠ [])
    (hlater : ∀ e ∈ later, hiHour E < floorHour e.timestamp) :
    (process_data (E ++ later)).take (process_data E).length =
      process_data E := by
  have hne2 : (E ++ later) ≠ [] := append_ne_nil_left hne
  have hhi := hiHour_append_le later hne
  have hlenle : (process_data E).length ≤
      (process_data (E ++ later)).length := by
    rw [process_data_length, process_data_length, hourRange_length hne,
      hourRange_length hne2, loHour_append hne hlater]
    omega
  apply List.ext_getElem
  · rw [List.length_take]
    exact Nat.min_eq_left hlenle
  · intro i h1 h2
    rw [List.getElem_take]
    have hiE : i < (hourRange E).length := by
      rw [← process_data_length]
      exact h2
    have hiL : i < (process_data (E ++ later)).length := by omega
    have hiL2 : i < (hourRange (E ++ later)).length := by
      rw [← process_data_length]
      exact hiL
    calc (process_data (E ++ later))[i]
        = (process_data (E ++ later)).getD i default :=
          (List.getD_eq_getElem _ _ hiL).symm
      _ = mkBucket (E ++ later) i := process_data_getD hiL2
      _ = mkBucket E i := mkBucket_append hne hlater hiE
      _ = (process_data E).getD i default := (process_data_getD hiE).symm
      _ = (process_data E)[i] := List.getD_eq_getElem _ _ h2

/-- C6: the pipeline is a pure function of the raw history (rerunning
it on an unchanged history reproduces the classifications exactly),
and the scored rows of the existing hours are unchanged by appending
later events: the classification of hour `h` depends only on events at
hours ≤ `h` (the trailing rolling window reads only rows at or before
`h`). -/
theorem c6_idempotent_reprocessing (model : Model) :
    (∀ E1 E2 : List Event, E1 = E2 →
      pipeline model E1 = pipeline model E2) ∧
    (∀ E later : List Event, E ≠ [] →
      (∀ e ∈ later, hiHour E < floorHour e.timestamp) →
      (pipeline model (E ++ later)).take (process_data E).length =
        pipeline model E) := by
  constructor
  · intro E1 E2 h
    rw [h]
  · intro E later hne hlater
    unfold pipeline run_inference
    rw [← List.map_take, process_data_append_take hne hlater]

/-- C6 (hypotheses instantiated): appending a strictly later heartbeat
does not disturb the scored row of the existing bucket. -/
theorem c6_witness :
    (([deviceEvent 0 "tv" 100] : List Event) = [deviceEvent 0 "tv" 100] ∧
      pipeline anomModel [deviceEvent 0 "tv" 100] =
        pipeline anomModel [deviceEvent 0 "tv" 100]) ∧
    (([deviceEvent 0 "tv" 100] : List Event) ≠ [] ∧
      (∀ e ∈ [heartbeat 7200],
        hiHour [deviceEvent 0 "tv" 100] < floorHour e.timestamp)) ∧
    (pipeline anomModel ([deviceEvent 0 "tv" 100] ++ [heartbeat 7200])).take
        (process_data [deviceEvent 0 "tv" 100]).length =
      pipeline anomModel [deviceEvent 0 "tv" 100] :=
  ⟨⟨rfl, (c6_idempotent_reprocessing anomModel).1 _ _ rfl⟩,
    ⟨by decide, by decide⟩,
    (c6_idempotent_reprocessing anomModel).2 [deviceEvent 0 "tv" 100]
      [heartbeat 7200] (by decide) (by decide)⟩

/-! ## The Notifier: logging, dedup and the tick -/

lemma log_alert_none (now : Nat) (row : ScoredBucket) {s : MonitorState}
    (hf : s.alert_log_file = none) :
    log_alert now row s = Except.ok
      { s with
          alert_history := s.alert_history ++ [mkAlertData now row],
          alert_log_file := some (Except.ok [mkAlertData now row]) } := by
  unfold log_alert
  rw [hf]

lemma log_alert_some (now : Nat) (row : ScoredBucket) {s : MonitorState}
    {l : List AlertData} (hf : s.alert_log_file = some (Except.ok l)) :
    log_alert now row s = Except.ok
      { s with
          alert_history := s.alert_history ++ [mkAlertData now row],
          alert_log_file :=
            some (Except.ok (l ++ [mkAlertData now row])) } := by
  unfold log_alert
  rw [hf]

lemma log_alert_err (now : Nat) (row : ScoredBucket) {s : MonitorState}
    {e : Unit} (hf : s.alert_log_file = some (Except.error e)) :
    log_alert now row s = Except.error e := by
  unfold log_alert
  rw [hf]

lemma log_warning_none (now : Nat) (row : ScoredBucket) {s : MonitorState}
    (hf : s.warning_log_file = none) :
    log_warning now row s = Except.ok
      { s with
          warning_history := s.warning_history ++ [mkWarningData now row],
          warning_log_file := some (Except.ok [mkWarningData now row]) } := by
  unfold log_warning
  rw [hf]

lemma log_warning_some (now : Nat) (row : ScoredBucket) {s : MonitorState}
    {l : List WarningData} (hf : s.warning_log_file = some (Except.ok l)) :
    log_warning now row s = Except.ok
      { s with
          warning_history := s.warning_history ++ [mkWarningData now row],
          warning_log_file :=
            some (Except.ok (l ++ [mkWarningData now row])) } := by
  unfold log_warning
  rw [hf]

lemma log_warning_err (now : Nat) (row : ScoredBucket) {s : MonitorState}
    {e : Unit} (hf : s.warning_log_file = some (Except.error e)) :
    log_warning now row s = Except.error e := by
  unfold log_warning
  rw [hf]

lemma log_alert_readsAs (now : Nat) (row : ScoredBucket) {s : MonitorState}
    {l : List AlertData} (hf : ReadsAs s.alert_log_file l) :
    log_alert now row s = Except.ok
      { s with
          alert_history := s.alert_history ++ [mkAlertData now row],
          alert_log_file :=
            some (Except.ok (l ++ [mkAlertData now row])) } := by
  rcases hf with ⟨hf, rfl⟩ | hf
  · rw [log_alert_none now row hf]
    rfl
  · exact log_alert_some now row hf

lemma log_warning_readsAs (now : Nat) (row : ScoredBucket) {s : MonitorState}
    {l : List WarningData} (hf : ReadsAs s.warning_log_file l) :
    log_warning now row s = Except.ok
      { s with
          warning_history := s.warning_history ++ [mkWarningData now row],
          warning_log_file :=
            some (Except.ok (l ++ [mkWarningData now row])) } := by
  rcases hf with ⟨hf, rfl⟩ | hf
  · rw [log_warning_none now row hf]
    rfl
  · exact log_warning_some now row hf

lemma notifyAlert_skip {t : Nat} {row : ScoredBucket} {s : MonitorState}
    (h : alreadyAlerted s row.hour = true) :
    notifyAlert t row s = Except.ok s := by
  simp [notifyAlert, h]

lemma notifyWarning_skip {t : Nat} {row : ScoredBucket} {s : MonitorState}
    (h : alreadyWarned s row.hour = true) :
    notifyWarning t row s = Except.ok s := by
  simp [notifyWarning, h]

lemma notifyAlert_log {t : Nat} {row : ScoredBucket} {s : MonitorState}
    (h : alreadyAlerted s row.hour = false) :
    notifyAlert t row s = log_alert t row s := by
  simp [notifyAlert, h]

lemma notifyWarning_log {t : Nat} {row : ScoredBucket} {s : MonitorState}
    (h : alreadyWarned s row.hour = false) :
    notifyWarning t row s = log_warning t row s := by
  simp [notifyWarning, h]

lemma notifyAlertMany_skip {ts : List Nat} {row : ScoredBucket}
    {s : MonitorState} (h : alreadyAlerted s row.hour = true) :
    notifyAlertMany ts row s = Except.ok s := by
  induction ts with
  | nil => rfl
  | cons t ts ih =>
      show (match notifyAlert t row s with
        | Except.error e => Except.error e
        | Except.ok s1 => notifyAlertMany ts row s1) = Except.ok s
      rw [notifyAlert_skip h]
      exact ih

lemma notifyWarningMany_skip {ts : List Nat} {row : ScoredBucket}
    {s : MonitorState} (h : alreadyWarned s row.hour = true) :
    notifyWarningMany ts row s = Except.ok s := by
  induction ts with
  | nil => rfl
  | cons t ts ih =>
      show (match notifyWarning t row s with
        | Except.error e => Except.error e
        | Except.ok s1 => notifyWarningMany ts row s1) = Except.ok s
      rw [notifyWarning_skip h]
      exact ih

lemma alreadyAlerted_append (s : MonitorState) (now : Nat)
    (row : ScoredBucket) (lf : LogFile AlertData) :
    alreadyAlerted
      { s with
          alert_history := s.alert_history ++ [mkAlertData now row],
          alert_log_file := lf } row.hour = true := by
  simp [alreadyAlerted, mkAlertData]

lemma alreadyWarned_append (s : MonitorState) (now : Nat)
    (row : ScoredBucket) (lf : LogFile WarningData) :
    alreadyWarned
      { s with
          warning_history := s.warning_history ++ [mkWarningData now row],
          warning_log_file := lf } row.hour = true := by
  simp [alreadyWarned, mkWarningData]

/-! ## C5 -/

/-- C5: per severity, per bucket hour, the Notifier (dedup check plus
log append) appends exactly one record within a process lifetime: when
the hour is not yet in the in-memory history and the log file is
missing-or-well-formed, the first invocation appends exactly one record
to the log (and the key to the history) and every later invocation
leaves the state untouched, however many there are. -/
theorem c5_dedup_appends_once :
    (∀ (t : Nat) (ts : List Nat) (row : ScoredBucket) (s : MonitorState)
        (l : List AlertData),
      ReadsAs s.alert_log_file l →
      alreadyAlerted s row.hour = false →
      notifyAlertMany (t :: ts) row s = Except.ok
        { s with
            alert_history := s.alert_history ++ [mkAlertData t row],
            alert_log_file :=
              some (Except.ok (l ++ [mkAlertData t row])) }) ∧
    (∀ (t : Nat) (ts : List Nat) (row : ScoredBucket) (s : MonitorState)
        (l : List WarningData),
      ReadsAs s.warning_log_file l →
      alreadyWarned s row.hour = false →
      notifyWarningMany (t :: ts) row s = Except.ok
        { s with
            warning_history := s.warning_history ++ [mkWarningData t row],
            warning_log_file :=
              some (Except.ok (l ++ [mkWarningData t row])) }) := by
  constructor
  · intro t ts row s l hreads hfresh
    show (match notifyAlert t row s with
      | Except.error e => Except.error e
      | Except.ok s1 => notifyAlertMany ts row s1) = _
    rw [notifyAlert_log hfresh, log_alert_readsAs t row hreads]
    exact notifyAlertMany_skip (alreadyAlerted_append s t row _)
  · intro t ts row s l hreads hfresh
    show (match notifyWarning t row s with
      | Except.error e => Except.error e
      | Except.ok s1 => notifyWarningMany ts row s1) = _
    rw [notifyWarning_log hfresh, log_warning_readsAs t row hreads]
    exact notifyWarningMany_skip (alreadyWarned_append s t row _)

/-- C5 (hypotheses instantiated): three invocations on a fresh state
append exactly one record to each log. -/
theorem c5_witness :
    (ReadsAs initialState.alert_log_file [] ∧
      alreadyAlerted initialState demoRow.hour = false ∧
      notifyAlertMany [4, 5, 6] demoRow initialState = Except.ok
        { initialState with
            alert_history :=
              initialState.alert_history ++ [mkAlertData 4 demoRow],
            alert_log_file :=
              some (Except.ok ([] ++ [mkAlertData 4 demoRow])) }) ∧
    (ReadsAs initialState.warning_log_file [] ∧
      alreadyWarned initialState demoRow.hour = false ∧
      notifyWarningMany [4, 5, 6] demoRow initialState = Except.ok
        { initialState with
            warning_history :=
              initialState.warning_history ++ [mkWarningData 4 demoRow],
            warning_log_file :=
              some (Except.ok ([] ++ [mkWarningData 4 demoRow])) }) :=
  ⟨⟨Or.inl ⟨rfl, rfl⟩, by decide,
      c5_dedup_appends_once.1 4 [5, 6] demoRow initialState []
        (Or.inl ⟨rfl, rfl⟩) (by decide)⟩,
    ⟨Or.inl ⟨rfl, rfl⟩, by decide,
      c5_dedup_appends_once.2 4 [5, 6] demoRow initialState []
        (Or.inl ⟨rfl, rfl⟩) (by decide)⟩⟩

/-! ## C9 -/

/-- C9 (counterexample): on a log file whose content is malformed, the
logging call raises (`json.load` propagates) instead of treating the
log as empty and appending the new record. -/
theorem c9_counterexample :
    log_alert 0 demoRow malformedState = Except.error () ∧
    log_warning 0 demoRow malformedState = Except.error () := by
  constructor
  · exact log_alert_err 0 demoRow rfl
  · exact log_warning_err 0 demoRow rfl

/-- C9 (amended): on malformed log content the logging call raises and
the tick aborts — the log is not treated as empty and nothing is
appended; and whenever a logging call succeeds, the on-disk content is
only ever replaced by the old records with the single new record
appended (a missing file becomes the one-record list), so well-formed
content is never overwritten except to append. -/
theorem c9_malformed_aborts :
    (∀ (now : Nat) (row : ScoredBucket) (s : MonitorState) (e : Unit),
      s.alert_log_file = some (Except.error e) →
      log_alert now row s = Except.error e) ∧
    (∀ (now : Nat) (row : ScoredBucket) (s : MonitorState) (e : Unit),
      s.warning_log_file = some (Except.error e) →
      log_warning now row s = Except.error e) ∧
    (∀ (now : Nat) (row : ScoredBucket) (s s2 : MonitorState),
      log_alert now row s = Except.ok s2 →
      (s.alert_log_file = none ∧
        s2.alert_log_file = some (Except.ok [mkAlertData now row])) ∨
      (∃ l, s.alert_log_file = some (Except.ok l) ∧
        s2.alert_log_file =
          some (Except.ok (l ++ [mkAlertData now row])))) ∧
    (∀ (now : Nat) (row : ScoredBucket) (s s2 : MonitorState),
      log_warning now row s = Except.ok s2 →
      (s.warning_log_file = none ∧
        s2.warning_log_file = some (Except.ok [mkWarningData now row])) ∨
      (∃ l, s.warning_log_file = some (Except.ok l) ∧
        s2.warning_log_file =
          some (Except.ok (l ++ [mkWarningData now row])))) := by
  refine ⟨fun now row s e hf => log_alert_err now row hf,
    fun now row s e hf => log_warning_err now row hf, ?_, ?_⟩
  · intro now row s s2 hok
    cases hf : s.alert_log_file with
    | none =>
        left
        rw [log_alert_none now row hf] at hok
        cases hok
        exact ⟨rfl, rfl⟩
    | some content =>
        cases content with
        | error e =>
            rw [log_alert_err now row hf] at hok
            cases hok
        | ok l =>
            right
            rw [log_alert_some now row hf] at hok
            cases hok
            exact ⟨l, rfl, rfl⟩
  · intro now row s s2 hok
    cases hf : s.warning_log_file with
    | none =>
        left
        rw [log_warning_none now row hf] at hok
        cases hok
        exact ⟨rfl, rfl⟩
    | some content =>
        cases content with
        | error e =>
            rw [log_warning_err now row hf] at hok
            cases hok
        | ok l =>
            right
            rw [log_warning_some now row hf] at hok
            cases hok
            exact ⟨l, rfl, rfl⟩

/-- C9 (hypotheses instantiated): aborting on malformed content and
append-only writing, at concrete states. -/
theorem c9_witness :
    (malformedState.alert_log_file = some (Except.error ()) ∧
      log_alert 3 demoRow malformedState = Except.error ()) ∧
    (okEmptyState.warning_log_file = some (Except.ok []) ∧
      ((okEmptyState.warning_log_file = none ∧
        (match log_warning 3 demoRow okEmptyState with
          | Except.ok s2 => s2
          | Except.error _ => okEmptyState).warning_log_file =
          some (Except.ok [mkWarningData 3 demoRow])) ∨
      (∃ l, okEmptyState.warning_log_file = some (Except.ok l) ∧
        (match log_warning 3 demoRow okEmptyState with
          | Except.ok s2 => s2
          | Except.error _ => okEmptyState).warning_log_file =
          some (Except.ok (l ++ [mkWarningData 3 demoRow]))))) :=
  ⟨⟨rfl, c9_malformed_aborts.1 3 demoRow malformedState () rfl⟩,
    ⟨rfl, c9_malformed_aborts.2.2.2 3 demoRow okEmptyState
      (match log_warning 3 demoRow okEmptyState with
        | Except.ok s2 => s2
        | Except.error _ => okEmptyState) (by decide)⟩⟩

/-! ## C8 -/

lemma alreadyAlerted_cons_state (s : MonitorState) (now : Nat)
    (r : ScoredBucket) (lf : LogFile AlertData) (h2 : Nat) :
    alreadyAlerted
      { s with
          alert_history := s.alert_history ++ [mkAlertData now r],
          alert_log_file := lf } h2 =
      (alreadyAlerted s h2 || (r.hour == h2)) := by
  simp [alreadyAlerted, mkAlertData, List.any_append]

lemma alreadyWarned_cons_state (s : MonitorState) (now : Nat)
    (r : ScoredBucket) (lf : LogFile WarningData) (h2 : Nat) :
    alreadyWarned
      { s with
          warning_history := s.warning_history ++ [mkWarningData now r],
          warning_log_file := lf } h2 =
      (alreadyWarned s h2 || (r.hour == h2)) := by
  simp [alreadyWarned, mkWarningData, List.any_append]

lemma processAlerts_spec (now : Nat) :
    ∀ (rows : List ScoredBucket) (s : MonitorState) (l : List AlertData),
      s.alert_log_file = some (Except.ok l) →
      (rows.map (fun sb => sb.hour)).Nodup →
      processAlerts now rows s = Except.ok
        { s with
            alert_history := s.alert_history ++
              ((rows.filter (fun r => !alreadyAlerted s r.hour)).map
                (mkAlertData now)),
            alert_log_file := some (Except.ok (l ++
              ((rows.filter (fun r => !alreadyAlerted s r.hour)).map
                (mkAlertData now)))) } := by
  intro rows
  induction rows with
  | nil =>
      intro s l hf _
      show Except.ok s = _
      simp only [List.filter_nil, List.map_nil, List.append_nil, ← hf]
  | cons r rs ih =>
      intro s l hf hnodup
      rw [List.map_cons, List.nodup_cons] at hnodup
      show (match notifyAlert now r s with
        | Except.error e => Except.error e
        | Except.ok s1 => processAlerts now rs s1) = _
      cases halready : alreadyAlerted s r.hour with
      | true =>
          rw [notifyAlert_skip halready]
          show processAlerts now rs s = _
          rw [ih s l hf hnodup.2]
          have hfilter : (r :: rs).filter
              (fun x => !alreadyAlerted s x.hour) =
              rs.filter (fun x => !alreadyAlerted s x.hour) := by
            simp [List.filter_cons, halready]
          rw [hfilter]
      | false =>
          rw [notifyAlert_log halready, log_alert_some now r hf]
          show processAlerts now rs
              { s with
                  alert_history := s.alert_history ++ [mkAlertData now r],
                  alert_log_file :=
                    some (Except.ok (l ++ [mkAlertData now r])) } = _
          rw [ih _ (l ++ [mkAlertData now r]) rfl hnodup.2]
          have hfcong : rs.filter (fun x => !alreadyAlerted
              { s with
                  alert_history := s.alert_history ++ [mkAlertData now r],
                  alert_log_file :=
                    some (Except.ok (l ++ [mkAlertData now r])) } x.hour) =
              rs.filter (fun x => !alreadyAlerted s x.hour) := by
            apply List.filter_congr
            intro x hx
            have hxne : ¬ r.hour = x.hour := by
              intro hcon
              exact hnodup.1 (hcon ▸ List.mem_map_of_mem _ hx)
            rw [alreadyAlerted_cons_state]
            simp [hxne]
          have hfilter : (r :: rs).filter
              (fun x => !alreadyAlerted s x.hour) =
              r :: rs.filter (fun x => !alreadyAlerted s x.hour) := by
            simp [List.filter_cons, halready]
          rw [hfcong, hfilter, List.map_cons]
          simp [List.append_assoc]

lemma processWarnings_spec (now : Nat) :
    ∀ (rows : List ScoredBucket) (s : MonitorState) (l : List WarningData),
      s.warning_log_file = some (Except.ok l) →
      (rows.map (fun sb => sb.hour)).Nodup →
      processWarnings now rows s = Except.ok
        { s with
            warning_history := s.warning_history ++
              ((rows.filter (fun r => !alreadyWarned s r.hour)).map
                (mkWarningData now)),
            warning_log_file := some (Except.ok (l ++
              ((rows.filter (fun r => !alreadyWarned s r.hour)).map
                (mkWarningData now)))) } := by
  intro rows
  induction rows with
  | nil =>
      intro s l hf _
      show Except.ok s = _
      simp only [List.filter_nil, List.map_nil, List.append_nil, ← hf]
  | cons r rs ih =>
      intro s l hf hnodup
      rw [List.map_cons, List.nodup_cons] at hnodup
      show (match notifyWarning now r s with
        | Except.error e => Except.error e
        | Except.ok s1 => processWarnings now rs s1) = _
      cases halready : alreadyWarned s r.hour with
      | true =>
          rw [notifyWarning_skip halready]
          show processWarnings now rs s = _
          rw [ih s l hf hnodup.2]
          have hfilter : (r :: rs).filter
              (fun x => !alreadyWarned s x.hour) =
              rs.filter (fun x => !alreadyWarned s x.hour) := by
            simp [List.filter_cons, halready]
          rw [hfilter]
      | false =>
          rw [notifyWarning_log halready, log_warning_some now r hf]
          show processWarnings now rs
              { s with
                  warning_history :=
                    s.warning_history ++ [mkWarningData now r],
                  warning_log_file :=
                    some (Except.ok (l ++ [mkWarningData now r])) } = _
          rw [ih _ (l ++ [mkWarningData now r]) rfl hnodup.2]
          have hfcong : rs.filter (fun x => !alreadyWarned
              { s with
                  warning_history :=
                    s.warning_history ++ [mkWarningData now r],
                  warning_log_file :=
                    some (Except.ok (l ++ [mkWarningData now r])) } x.hour) =
              rs.filter (fun x => !alreadyWarned s x.hour) := by
            apply List.filter_congr
            intro x hx
            have hxne : ¬ r.hour = x.hour := by
              intro hcon
              exact hnodup.1 (hcon ▸ List.mem_map_of_mem _ hx)
            rw [alreadyWarned_cons_state]
            simp [hxne]
          have hfilter : (r :: rs).filter
              (fun x => !alreadyWarned s x.hour) =
              r :: rs.filter (fun x => !alreadyWarned s x.hour) := by
            simp [List.filter_cons, halready]
          rw [hfcong, hfilter, List.map_cons]
          simp [List.append_assoc]

lemma hourRange_nodup (events : List Event) : (hourRange events).Nodup := by
  unfold hourRange
  split
  · exact List.nodup_nil
  · exact List.Nodup.map (fun a b h => by omega) (List.nodup_range _)

lemma pipeline_map_hour (model : Model) (events : List Event) :
    (pipeline model events).map (fun sb => sb.hour) =
      (process_data events).map Bucket.hour := by
  unfold pipeline run_inference
  rw [List.map_map]
  rfl

lemma pipeline_hours_nodup (model : Model) (events : List Event) :
    ((pipeline model events).map (fun sb => sb.hour)).Nodup := by
  rw [pipeline_map_hour, process_data_map_hour]
  exact hourRange_nodup events

lemma filtered_hours_nodup (model : Model) (events : List Event)
    (p : ScoredBucket → Bool) :
    (((pipeline model events).filter p).map (fun sb => sb.hour)).Nodup := by
  have hsub : List.Sublist
      (((pipeline model events).filter p).map (fun sb => sb.hour))
      ((pipeline model events).map (fun sb => sb.hour)) :=
    List.Sublist.map _ (List.filter_sublist _)
  exact List.Nodup.sublist hsub (pipeline_hours_nodup model events)

/-- C8 (amended): on a tick with new rows, the monitor re-derives the
whole table and walks every `alert` row and every `warning` row — not
only the most recent bucket: each such row whose hour is not yet in the
corresponding in-memory history is appended to the log (whatever its
position), and rows with already-seen hours append nothing. -/
theorem c8_tick_evaluates_every_bucket (model : Model) (now : Nat)
    (events : List Event) (s : MonitorState)
    (la : List AlertData) (lw : List WarningData)
    (hA : s.alert_log_file = some (Except.ok la))
    (hW : s.warning_log_file = some (Except.ok lw)) :
    tick model now events s = Except.ok
      { s with
          alert_history := s.alert_history ++
            ((((pipeline model events).filter (fun sb => sb.alert)).filter
              (fun r => !alreadyAlerted s r.hour)).map (mkAlertData now)),
          alert_log_file := some (Except.ok (la ++
            ((((pipeline model events).filter (fun sb => sb.alert)).filter
              (fun r => !alreadyAlerted s r.hour)).map (mkAlertData now)))),
          warning_history := s.warning_history ++
            ((((pipeline model events).filter (fun sb => sb.warning)).filter
              (fun r => !alreadyWarned s r.hour)).map (mkWarningData now)),
          warning_log_file := some (Except.ok (lw ++
            ((((pipeline model events).filter (fun sb => sb.warning)).filter
              (fun r => !alreadyWarned s r.hour)).map
                (mkWarningData now)))) } := by
  unfold tick
  show (match processAlerts now
      ((pipeline model events).filter (fun sb => sb.alert)) s with
    | Except.error e => Except.error e
    | Except.ok s1 => processWarnings now
        ((pipeline model events).filter (fun sb => sb.warning)) s1) = _
  rw [processAlerts_spec now _ s la hA
    (filtered_hours_nodup model events (fun sb => sb.alert))]
  show processWarnings now
      ((pipeline model events).filter (fun sb => sb.warning))
      { s with
          alert_history := s.alert_history ++
            ((((pipeline model events).filter (fun sb => sb.alert)).filter
              (fun r => !alreadyAlerted s r.hour)).map (mkAlertData now)),
          alert_log_file := some (Except.ok (la ++
            ((((pipeline model events).filter (fun sb => sb.alert)).filter
              (fun r => !alreadyAlerted s r.hour)).map
                (mkAlertData now)))) } = _
  have hW2 : ({ s with
      alert_history := s.alert_history ++
        ((((pipeline model events).filter (fun sb => sb.alert)).filter
          (fun r => !alreadyAlerted s r.hour)).map (mkAlertData now)),
      alert_log_file := some (Except.ok (la ++
        ((((pipeline model events).filter (fun sb => sb.alert)).filter
          (fun r => !alreadyAlerted s r.hour)).map
            (mkAlertData now)))) } : MonitorState).warning_log_file =
      some (Except.ok lw) := hW
  rw [processWarnings_spec now _ _ lw hW2
    (filtered_hours_nodup model events (fun sb => sb.warning))]
  rfl

/-- C8 (hypotheses instantiated): one tick from a fresh state over a
two-hour history with an always-anomalous model. -/
theorem c8_witness :
    (okEmptyState.alert_log_file = some (Except.ok []) ∧
      okEmptyState.warning_log_file = some (Except.ok [])) ∧
    tick anomModel 9 twoDeviceHours okEmptyState = Except.ok
      { okEmptyState with
          alert_history := okEmptyState.alert_history ++
            ((((pipeline anomModel twoDeviceHours).filter
              (fun sb => sb.alert)).filter
              (fun r => !alreadyAlerted okEmptyState r.hour)).map
                (mkAlertData 9)),
          alert_log_file := some (Except.ok ([] ++
            ((((pipeline anomModel twoDeviceHours).filter
              (fun sb => sb.alert)).filter
              (fun r => !alreadyAlerted okEmptyState r.hour)).map
                (mkAlertData 9)))),
          warning_history := okEmptyState.warning_history ++
            ((((pipeline anomModel twoDeviceHours).filter
              (fun sb => sb.warning)).filter
              (fun r => !alreadyWarned okEmptyState r.hour)).map
                (mkWarningData 9)),
          warning_log_file := some (Except.ok ([] ++
            ((((pipeline anomModel twoDeviceHours).filter
              (fun sb => sb.warning)).filter
              (fun r => !alreadyWarned okEmptyState r.hour)).map
                (mkWarningData 9)))) } :=
  ⟨⟨rfl, rfl⟩,
    c8_tick_evaluates_every_bucket anomModel 9 twoDeviceHours okEmptyState
      [] [] rfl rfl⟩

/-- C8 (counterexample): on a single tick over a fresh state and a
two-bucket history whose rows the model all flags anomalous, warning
notifications are appended for hours 0 and 1, while the most recent
bucket is hour 1 — a notification was emitted for a bucket other than
the latest one. -/
theorem c8_counterexample :
    ((tick anomModel 9 twoDeviceHours okEmptyState).map
        (fun s => s.warning_history.map (fun w => w.warning_hour))) =
      Except.ok [0, 1] ∧
    ((tick anomModel 9 twoDeviceHours okEmptyState).map
        (fun s =>
          (match s.warning_log_file with
            | some (Except.ok lrec) =>
                some (lrec.map (fun w => w.warning_hour))
            | _ => none))) = Except.ok (some [0, 1]) ∧
    ((pipeline anomModel twoDeviceHours).map
      (fun sb => sb.hour)).getLast? = some 1 := by
  decide

end ElCare
